import Mathlib

/-!
Shallow embedding of `guardian/core.py` (the `ObjectPermissionChecker` class)
and proofs of the specification claims about it.

Strings are modelled as lists of characters (`Str`); the database tables the
raw SQL and ORM queries touch (`auth_permission`, `guardian_userobjectpermission`,
`guardian_groupobjectpermission`, `auth_user_groups`) are lists of records in a
`World`; the user flags `is_active` / `is_superuser` are functions of the user
id in the `World`, since the Python code reads them from the bound user object
at call time.  Object resolution (content type and primary key) may fail,
modelled with `Except`.
-/

namespace Guardian

abbrev Str := List Char

/-- A row of `auth_permission`: a permission definition for one content type. -/
structure PermDef where
  id : Nat
  codename : Str
  content_type_id : Nat
  deriving DecidableEq

/-- A row of `guardian_userobjectpermission`. -/
structure UserObjPerm where
  permission_id : Nat
  user_id : Nat
  object_pk : Str
  content_type_id : Nat
  deriving DecidableEq

/-- A row of `guardian_groupobjectpermission`. -/
structure GroupObjPerm where
  permission_id : Nat
  group_id : Nat
  object_pk : Str
  content_type_id : Nat
  deriving DecidableEq

/-- The backend state: permission tables, group membership rows of
`auth_user_groups` as `(user_id, group_id)` pairs, and the current user flags
(read from the user object at call time, hence functions of the user id). -/
structure World where
  permissions : List PermDef
  userPerms : List UserObjPerm
  groupPerms : List GroupObjPerm
  userGroups : List (Nat × Nat)
  isActive : Nat → Bool
  isSuperuser : Nat → Bool

/-- A Django model instance, as the checker sees it: its content type and its
primary key, each possibly unresolvable. -/
structure Obj where
  ctypeId : Option Nat
  pk : Option Str
  deriving DecidableEq

inductive GErr where
  | invalidObject
  deriving DecidableEq

/-- `ContentType.objects.get_for_model(obj)`. -/
def get_for_model (o : Obj) : Except GErr Nat :=
  match o.ctypeId with
  | some ct => .ok ct
  | none => .error .invalidObject

/-- `obj.pk` resolution. -/
def obj_pk (o : Obj) : Except GErr Str :=
  match o.pk with
  | some pk => .ok pk
  | none => .error .invalidObject

/-- `ObjectPermissionChecker.get_local_cache_key`. -/
def get_local_cache_key (o : Obj) : Except GErr (Nat × Str) := do
  let ct ← get_for_model o
  let pk ← obj_pk o
  pure (ct, pk)

abbrev Cache := List ((Nat × Str) × List Str)

def cacheLookup (k : Nat × Str) : Cache → Option (List Str)
  | [] => none
  | (k', v) :: rest => if k' = k then some v else cacheLookup k rest

def cacheInsert (k : Nat × Str) (v : List Str) (c : Cache) : Cache :=
  (k, v) :: c

/-- Checker state: the `(user, group)` pair resolved at construction (stored as
ids, flags being read from the `World` at call time) and `_obj_perms_cache`. -/
structure Checker where
  user : Option Nat
  group : Option Nat
  cache : Cache
  deriving DecidableEq

/-- Argument accepted by the constructor. -/
inductive IdentityArg where
  | noArg
  | anonymous
  | user (uid : Nat)
  | group (gid : Nat)
  deriving DecidableEq

/-- Modelled from the spec: `get_identity` lives in `guardian/utils.py`, which
is not among the source files; the spec states construction resolves the
argument to exactly the `(user, group)` pair used for all later checks — no
argument or an anonymous marker give (no user, no group), a user instance
gives (that user, no group), a group instance gives (no user, that group). -/
def get_identity : IdentityArg → Option Nat × Option Nat
  | .noArg => (none, none)
  | .anonymous => (none, none)
  | .user uid => (some uid, none)
  | .group gid => (none, some gid)

/-- `ObjectPermissionChecker.__init__`: bind the identity, start with an empty
cache. -/
def newChecker (arg : IdentityArg) : Checker :=
  let ug := get_identity arg
  { user := ug.1, group := ug.2, cache := [] }

/-- `ObjectPermissionChecker._execute_normal_user_query`: the raw SQL.  It is a
`UNION ALL` of (a) permission definitions of the object's content type joined
with `guardian_groupobjectpermission` rows for this object and with the
`auth_user_groups` membership rows of this user (the intermediate `auth_group`
join collapses by primary-key integrity of `auth_group.id`), and (b) permission
definitions joined with `guardian_userobjectpermission` rows for this user and
object.  `UNION ALL` keeps one output row per joined row combination. -/
def execute_normal_user_query (w : World) (ct : Nat) (pk : Str) (uid : Nat) :
    List Str :=
  ((w.permissions.filter (fun p => p.content_type_id == ct)).flatMap fun p =>
    (w.groupPerms.filter (fun gop =>
        gop.permission_id == p.id && gop.object_pk == pk &&
        gop.content_type_id == p.content_type_id)).flatMap fun gop =>
      (w.userGroups.filter (fun m =>
          m.2 == gop.group_id && m.1 == uid)).map fun _ => p.codename)
  ++
  ((w.permissions.filter (fun p => p.content_type_id == ct)).flatMap fun p =>
    (w.userPerms.filter (fun uop =>
        uop.permission_id == p.id && uop.object_pk == pk &&
        uop.user_id == uid && uop.content_type_id == p.content_type_id)).map
      fun _ => p.codename)

/-- The superuser branch of `get_perms`:
`Permission.objects.filter(content_type=ctype).values_list("codename")`. -/
def superuser_query (w : World) (ct : Nat) : List Str :=
  (w.permissions.filter (fun p => p.content_type_id == ct)).map (·.codename)

/-- The group branch of `get_perms`: permission definitions of the content type
joined with `guardian_groupobjectpermission` rows whose group equals the bound
group (`None` matches nothing), whose `object_pk` equals the object's, and
whose content type matches, then deduplicated by `list(set(...))`. -/
def group_query (w : World) (g : Option Nat) (ct : Nat) (pk : Str) : List Str :=
  (((w.permissions.filter (fun p => p.content_type_id == ct)).flatMap fun p =>
    (w.groupPerms.filter (fun gop =>
        gop.permission_id == p.id &&
        gop.content_type_id == p.content_type_id &&
        some gop.group_id == g &&
        gop.object_pk == pk)).map fun _ => p.codename)).dedup

/-- `ObjectPermissionChecker.get_perms`.  Returns the permission list together
with the cache as left after the call (`self._obj_perms_cache`). -/
def get_perms (w : World) (chk : Checker) (o : Obj) :
    Except GErr (List Str × Cache) := do
  let _ ← get_for_model o
  let key ← get_local_cache_key o
  match cacheLookup key chk.cache with
  | some ps => pure (ps, chk.cache)
  | none =>
    match chk.user with
    | some uid =>
      if w.isActive uid = false then
        pure ([], chk.cache)
      else if w.isSuperuser uid = true then
        let perms := superuser_query w key.1
        pure (perms, cacheInsert key perms chk.cache)
      else
        let perms := execute_normal_user_query w key.1 key.2 uid
        pure (perms, cacheInsert key perms chk.cache)
    | none =>
      let perms := group_query w chk.group key.1 key.2
      pure (perms, cacheInsert key perms chk.cache)

/-- Python's `perm.split('.')`, on character lists. -/
def splitOnDot : Str → List Str
  | [] => [[]]
  | c :: cs =>
    if c = '.' then
      [] :: splitOnDot cs
    else
      match splitOnDot cs with
      | [] => [[c]]
      | s :: ss => (c :: s) :: ss

/-- Last element of a list, with a default for the empty list (Python's `[-1]`
indexing; `splitOnDot` never returns an empty list, so the default is inert). -/
def lastElemD : List Str → Str → Str
  | [], d => d
  | [s], _ => s
  | _ :: s :: ss, d => lastElemD (s :: ss) d

/-- `perm.split('.')[-1]`: the trailing dot-separated segment. -/
def lastSeg (s : Str) : Str :=
  lastElemD (splitOnDot s) []

/-- The final `return perm in self.get_perms(obj)` of `has_perm`. -/
def memberPerms (w : World) (chk : Checker) (o : Obj) (p : Str) :
    Except GErr Bool := do
  let ps ← get_perms w chk o
  pure (decide (p ∈ ps.1))

/-- `ObjectPermissionChecker.has_perm`. -/
def has_perm (w : World) (chk : Checker) (perm : Str) (o : Obj) :
    Except GErr Bool :=
  let p := lastSeg perm
  match chk.user with
  | some uid =>
    if w.isActive uid = false then pure false
    else if w.isSuperuser uid = true then pure true
    else memberPerms w chk o p
  | none => memberPerms w chk o p

end Guardian

namespace Guardian

/-! ### Spec-side characterizations of the three grant sources -/

/-- `cod` is granted to user `uid` directly on the object: some permission
definition for the content type carries it and a `UserObjectPermission` row
matches. -/
def grantedDirect (w : World) (ct : Nat) (pk : Str) (uid : Nat) (cod : Str) :
    Prop :=
  ∃ p ∈ w.permissions, p.content_type_id = ct ∧ p.codename = cod ∧
    ∃ uop ∈ w.userPerms, uop.permission_id = p.id ∧ uop.object_pk = pk ∧
      uop.user_id = uid ∧ uop.content_type_id = p.content_type_id

/-- `cod` is granted on the object to some group the user belongs to. -/
def grantedViaGroup (w : World) (ct : Nat) (pk : Str) (uid : Nat) (cod : Str) :
    Prop :=
  ∃ p ∈ w.permissions, p.content_type_id = ct ∧ p.codename = cod ∧
    ∃ gop ∈ w.groupPerms, gop.permission_id = p.id ∧ gop.object_pk = pk ∧
      gop.content_type_id = p.content_type_id ∧
      (uid, gop.group_id) ∈ w.userGroups

/-- `cod` is granted on the object to the specific group `g`. -/
def grantedToGroup (w : World) (ct : Nat) (pk : Str) (g : Nat) (cod : Str) :
    Prop :=
  ∃ p ∈ w.permissions, p.content_type_id = ct ∧ p.codename = cod ∧
    ∃ gop ∈ w.groupPerms, gop.permission_id = p.id ∧
      gop.content_type_id = p.content_type_id ∧ gop.group_id = g ∧
      gop.object_pk = pk

/-! ### Unfolding and membership lemmas -/

theorem get_perms_eq (w : World) (chk : Checker) (o : Obj) (ct : Nat)
    (pk : Str) (hct : o.ctypeId = some ct) (hpk : o.pk = some pk) :
    get_perms w chk o =
      match cacheLookup (ct, pk) chk.cache with
      | some ps => .ok (ps, chk.cache)
      | none =>
        match chk.user with
        | some uid =>
          if w.isActive uid = false then .ok ([], chk.cache)
          else if w.isSuperuser uid = true then
            .ok (superuser_query w ct,
                 cacheInsert (ct, pk) (superuser_query w ct) chk.cache)
          else
            .ok (execute_normal_user_query w ct pk uid,
                 cacheInsert (ct, pk) (execute_normal_user_query w ct pk uid)
                   chk.cache)
        | none =>
          .ok (group_query w chk.group ct pk,
               cacheInsert (ct, pk) (group_query w chk.group ct pk)
                 chk.cache) := by
  simp only [get_perms, get_for_model, get_local_cache_key, obj_pk, hct, hpk,
    bind, Except.bind, pure, Except.pure]

theorem mem_execute_normal_user_query (w : World) (ct : Nat) (pk : Str)
    (uid : Nat) (cod : Str) :
    cod ∈ execute_normal_user_query w ct pk uid ↔
      grantedViaGroup w ct pk uid cod ∨ grantedDirect w ct pk uid cod := by
  simp only [execute_normal_user_query, grantedViaGroup, grantedDirect,
    List.mem_append, List.mem_flatMap, List.mem_filter, List.mem_map,
    Bool.and_eq_true, beq_iff_eq]
  constructor
  · rintro (⟨p, ⟨hp, hpct⟩, gop, ⟨hgop, ⟨hgp, hgpk⟩, hgct⟩, m, ⟨hm, hmg, hmu⟩, hcod⟩ |
            ⟨p, ⟨hp, hpct⟩, uop, ⟨huop, ⟨⟨hup, hupk⟩, huu⟩, huct⟩, hcod⟩)
    · refine Or.inl ⟨p, hp, hpct, hcod, gop, hgop, hgp, hgpk, hgct, ?_⟩
      have : m = (uid, gop.group_id) := Prod.ext hmu hmg
      exact this ▸ hm
    · exact Or.inr ⟨p, hp, hpct, hcod, uop, huop, hup, hupk, huu, huct⟩
  · rintro (⟨p, hp, hpct, hcod, gop, hgop, hgp, hgpk, hgct, hm⟩ |
            ⟨p, hp, hpct, hcod, uop, huop, hup, hupk, huu, huct⟩)
    · exact Or.inl ⟨p, ⟨hp, hpct⟩, gop, ⟨hgop, ⟨hgp, hgpk⟩, hgct⟩,
        (uid, gop.group_id), ⟨hm, rfl, rfl⟩, hcod⟩
    · exact Or.inr ⟨p, ⟨hp, hpct⟩, uop, ⟨huop, ⟨⟨hup, hupk⟩, huu⟩, huct⟩, hcod⟩

theorem mem_group_query (w : World) (g : Nat) (ct : Nat) (pk : Str)
    (cod : Str) :
    cod ∈ group_query w (some g) ct pk ↔ grantedToGroup w ct pk g cod := by
  simp only [group_query, grantedToGroup, List.mem_dedup, List.mem_flatMap,
    List.mem_filter, List.mem_map, Bool.and_eq_true, beq_iff_eq,
    Option.some.injEq]
  constructor
  · rintro ⟨p, ⟨hp, hpct⟩, gop, ⟨hgop, ⟨⟨hgp, hgct⟩, hgg⟩, hgpk⟩, hcod⟩
    exact ⟨p, hp, hpct, hcod, gop, hgop, hgp, hgct, hgg, hgpk⟩
  · rintro ⟨p, hp, hpct, hcod, gop, hgop, hgp, hgct, hgg, hgpk⟩
    exact ⟨p, ⟨hp, hpct⟩, gop, ⟨hgop, ⟨⟨hgp, hgct⟩, hgg⟩, hgpk⟩, hcod⟩

theorem group_query_none (w : World) (ct : Nat) (pk : Str) :
    group_query w none ct pk = [] := by
  simp [group_query, List.filter_eq_nil_iff]

theorem mem_superuser_query (w : World) (ct : Nat) (cod : Str) :
    cod ∈ superuser_query w ct ↔
      ∃ p ∈ w.permissions, p.content_type_id = ct ∧ p.codename = cod := by
  simp only [superuser_query, List.mem_map, List.mem_filter, beq_iff_eq]
  constructor
  · rintro ⟨p, ⟨hp, hpct⟩, hcod⟩
    exact ⟨p, hp, hpct, hcod⟩
  · rintro ⟨p, hp, hpct, hcod⟩
    exact ⟨p, ⟨hp, hpct⟩, hcod⟩

end Guardian

namespace Guardian

/-! ### Lemmas about `splitOnDot` / `lastSeg` -/

theorem splitOnDot_ne_nil (s : Str) : splitOnDot s ≠ [] := by
  match s with
  | [] => simp [splitOnDot]
  | c :: cs =>
    by_cases h : c = '.'
    · simp [splitOnDot, h]
    · have := splitOnDot_ne_nil cs
      cases hs : splitOnDot cs with
      | nil => exact absurd hs this
      | cons a as => simp [splitOnDot, h, hs]

theorem splitOnDot_append_dot (xs ys : Str) :
    splitOnDot (xs ++ '.' :: ys) = splitOnDot xs ++ splitOnDot ys := by
  induction xs with
  | nil => simp [splitOnDot]
  | cons c cs ih =>
    by_cases h : c = '.'
    · simp [splitOnDot, h, ih]
    · cases hs : splitOnDot cs with
      | nil => exact absurd hs (splitOnDot_ne_nil cs)
      | cons a as =>
        simp only [List.cons_append, splitOnDot, h, if_false, List.append_eq,
          ih, hs, List.cons_append]

theorem lastElemD_irrel (l : List Str) (d d' : Str) (h : l ≠ []) :
    lastElemD l d = lastElemD l d' := by
  match l with
  | [] => exact absurd rfl h
  | [s] => rfl
  | a :: s :: ss =>
    rw [lastElemD, lastElemD]
    exact lastElemD_irrel (s :: ss) d d' (by simp)

theorem lastElemD_append (l₁ l₂ : List Str) (d : Str) (h : l₂ ≠ []) :
    lastElemD (l₁ ++ l₂) d = lastElemD l₂ d := by
  induction l₁ with
  | nil => rfl
  | cons a l₁ ih =>
    match hl : l₁ ++ l₂ with
    | [] => exact absurd (List.append_eq_nil.mp hl).2 h
    | x :: xs =>
      rw [List.cons_append, hl, lastElemD, ← hl, ih]

theorem lastSeg_append_dot (xs ys : Str) :
    lastSeg (xs ++ '.' :: ys) = lastSeg ys := by
  rw [lastSeg, splitOnDot_append_dot,
    lastElemD_append _ _ _ (splitOnDot_ne_nil ys)]
  rfl

theorem splitOnDot_of_no_dot (s : Str) (h : '.' ∉ s) : splitOnDot s = [s] := by
  induction s with
  | nil => rfl
  | cons c cs ih =>
    have hc : c ≠ '.' := fun hc => h (hc ▸ List.mem_cons_self c cs)
    have hcs : '.' ∉ cs := fun hm => h (List.mem_cons_of_mem c hm)
    simp only [splitOnDot, hc, if_false, ih hcs]

theorem lastSeg_of_no_dot (s : Str) (h : '.' ∉ s) : lastSeg s = s := by
  rw [lastSeg, splitOnDot_of_no_dot s h]
  rfl

end Guardian

namespace Guardian

/-! ### Concrete sample data for witnesses and counterexamples -/

def sampleEdit : Str := ['e', 'd', 'i', 't']

def sampleView : Str := ['v', 'i', 'e', 'w']

def samplePk : Str := ['1']

def sampleWorld : World :=
  { permissions := [⟨1, sampleEdit, 1⟩, ⟨2, sampleView, 1⟩]
    userPerms := [⟨1, 1, samplePk, 1⟩]
    groupPerms := [⟨2, 5, samplePk, 1⟩]
    userGroups := [(1, 5)]
    isActive := fun _ => true
    isSuperuser := fun _ => false }

def inactiveWorld : World :=
  { sampleWorld with isActive := fun _ => false }

def sampleObj : Obj := ⟨some 1, some samplePk⟩

def userChecker : Checker := ⟨some 1, none, []⟩

def cachedChecker : Checker := ⟨some 1, none, [((1, samplePk), [sampleEdit])]⟩

/-! ### Claim theorems -/

/-- C3: once a `(type-tag, primary-key)` cache entry is present in a checker,
`get_perms` on that object returns the cached list verbatim and leaves the
cache unchanged, for every `World` — so the result does not depend on the
backend tables or on the user's current `is_active` / `is_superuser` flags
(both live in the universally quantified `World`), i.e. no backend query and
no flag re-check happens on a cache hit. -/
theorem C3_cache_hit_is_final (w : World) (chk : Checker) (o : Obj) (ct : Nat)
    (pk : Str) (ps : List Str) (hct : o.ctypeId = some ct)
    (hpk : o.pk = some pk)
    (hhit : cacheLookup (ct, pk) chk.cache = some ps) :
    get_perms w chk o = .ok (ps, chk.cache) := by
  rw [get_perms_eq w chk o ct pk hct hpk, hhit]

/-- Witness for C3: a checker whose cache already holds `["edit"]` for the
object returns it even in a world where the user has become inactive. -/
theorem C3_witness :
    get_perms inactiveWorld cachedChecker sampleObj =
      .ok ([sampleEdit], cachedChecker.cache) :=
  C3_cache_hit_is_final inactiveWorld cachedChecker sampleObj 1 samplePk
    [sampleEdit] rfl rfl rfl

/-- C5: for a bound inactive user, `has_perm` is `.ok false` for every
permission string and every object (even an unresolvable one — no backend
call, no object resolution), and `get_perms` on a resolvable, uncached object
returns the empty list. -/
theorem C5_inactive_user (w : World) (chk : Checker) (o : Obj) (uid ct : Nat)
    (pk : Str) (hu : chk.user = some uid) (hina : w.isActive uid = false)
    (hct : o.ctypeId = some ct) (hpk : o.pk = some pk)
    (hmiss : cacheLookup (ct, pk) chk.cache = none) :
    (∀ perm o', has_perm w chk perm o' = .ok false) ∧
    get_perms w chk o = .ok ([], chk.cache) := by
  constructor
  · intro perm o'
    simp [has_perm, hu, hina, pure, Except.pure]
  · rw [get_perms_eq w chk o ct pk hct hpk, hmiss]
    simp [hu, hina]

/-- Witness for C5 at a concrete inactive user, object and world. -/
theorem C5_witness :
    (∀ perm o', has_perm inactiveWorld userChecker perm o' = .ok false) ∧
    get_perms inactiveWorld userChecker sampleObj =
      .ok ([], userChecker.cache) :=
  C5_inactive_user inactiveWorld userChecker sampleObj 1 1 samplePk rfl rfl
    rfl rfl rfl

/-- C10: when the bound user is inactive or a superuser, `has_perm` returns
its boolean (equal to the current `is_active` flag in those cases) for every
object, including objects with no resolvable content type or primary key: the
flag checks happen before any object resolution, so no `invalidObject` error
can surface and no backend table is consulted. -/
theorem C10_flag_short_circuit (w : World) (chk : Checker) (uid : Nat)
    (perm : Str) (o : Obj) (hu : chk.user = some uid)
    (hflag : w.isActive uid = false ∨ w.isSuperuser uid = true) :
    has_perm w chk perm o = .ok (w.isActive uid) := by
  cases hflag with
  | inl hina => simp [has_perm, hu, hina, pure, Except.pure]
  | inr hsup =>
    cases hact : w.isActive uid with
    | false => simp [has_perm, hu, hact, pure, Except.pure]
    | true => simp [has_perm, hu, hact, hsup, pure, Except.pure]

/-- Witness for C10: an inactive user checked against a fully unresolvable
object still gets `.ok false`, with no error. -/
theorem C10_witness :
    has_perm inactiveWorld userChecker sampleEdit ⟨none, none⟩ =
      .ok (inactiveWorld.isActive 1) :=
  C10_flag_short_circuit inactiveWorld userChecker 1 sampleEdit ⟨none, none⟩
    rfl (Or.inl rfl)

/-- Counterexample to C2: with a bound inactive user and an empty cache,
`get_perms` returns the empty list but the returned cache is still the empty
cache — the `(type-tag, primary-key)` entry is *not* populated, contrary to
the claim that the empty result is written to the cache. -/
theorem C2_counterexample :
    get_perms inactiveWorld userChecker sampleObj = .ok ([], []) ∧
    cacheLookup (1, samplePk) [] = none := ⟨rfl, rfl⟩

/-- C2 as amended: when the bound user is inactive and the object's entry is
not in the cache, `get_perms` returns an empty list and leaves the cache
exactly as it was — the early return bypasses the cache write, so the entry
stays absent. -/
theorem C2_inactive_no_cache_write (w : World) (chk : Checker) (o : Obj)
    (uid ct : Nat) (pk : Str) (hu : chk.user = some uid)
    (hina : w.isActive uid = false) (hct : o.ctypeId = some ct)
    (hpk : o.pk = some pk)
    (hmiss : cacheLookup (ct, pk) chk.cache = none) :
    get_perms w chk o = .ok ([], chk.cache) ∧
    cacheLookup (ct, pk) chk.cache = none := by
  refine ⟨?_, hmiss⟩
  rw [get_perms_eq w chk o ct pk hct hpk, hmiss]
  simp [hu, hina]

/-- Witness for the amended C2 at a concrete inactive user and object. -/
theorem C2_witness :
    get_perms inactiveWorld userChecker sampleObj =
      .ok ([], userChecker.cache) ∧
    cacheLookup (1, samplePk) userChecker.cache = none :=
  C2_inactive_no_cache_write inactiveWorld userChecker sampleObj 1 1 samplePk
    rfl rfl rfl rfl rfl

end Guardian

namespace Guardian

/-- C4: for a bound active superuser, `has_perm` is `.ok true` for every
permission string (in particular every codename defined for the object's
type) and every object — even an unresolvable one, so `get_perms` and the
grant tables are never consulted — and `get_perms` on a resolvable, uncached
object returns exactly the codenames of all permission definitions for the
object's content type, regardless of any grants. -/
theorem C4_superuser (w : World) (chk : Checker) (o : Obj) (uid ct : Nat)
    (pk : Str) (hu : chk.user = some uid) (hact : w.isActive uid = true)
    (hsup : w.isSuperuser uid = true) (hct : o.ctypeId = some ct)
    (hpk : o.pk = some pk)
    (hmiss : cacheLookup (ct, pk) chk.cache = none) :
    (∀ perm o', has_perm w chk perm o' = .ok true) ∧
    ∃ ps c', get_perms w chk o = .ok (ps, c') ∧
      ∀ cod, cod ∈ ps ↔
        ∃ p ∈ w.permissions, p.content_type_id = ct ∧ p.codename = cod := by
  constructor
  · intro perm o'
    simp [has_perm, hu, hact, hsup, pure, Except.pure]
  · refine ⟨superuser_query w ct,
      cacheInsert (ct, pk) (superuser_query w ct) chk.cache, ?_,
      fun cod => mem_superuser_query w ct cod⟩
    rw [get_perms_eq w chk o ct pk hct hpk, hmiss]
    simp [hu, hact, hsup]

def superWorld : World :=
  { sampleWorld with isSuperuser := fun _ => true }

/-- Witness for C4: a concrete superuser holds every permission string on any
object and `get_perms` lists all codenames defined for the type. -/
theorem C4_witness :
    (∀ perm o', has_perm superWorld userChecker perm o' = .ok true) ∧
    ∃ ps c', get_perms superWorld userChecker sampleObj = .ok (ps, c') ∧
      ∀ cod, cod ∈ ps ↔
        ∃ p ∈ superWorld.permissions, p.content_type_id = 1 ∧
          p.codename = cod :=
  C4_superuser superWorld userChecker sampleObj 1 1 samplePk rfl rfl rfl rfl
    rfl rfl

/-- C6: `has_perm` only looks at the trailing dot-separated segment of the
permission string: for any non-superuser, non-inactive identity (no bound
user, or a bound user that is active and not a superuser), prefixing the
permission with any characters followed by a dot does not change the answer. -/
theorem C6_only_trailing_segment_matters (w : World) (chk : Checker) (o : Obj)
    (pre cod : Str)
    (_hns : ∀ uid, chk.user = some uid →
      w.isActive uid = true ∧ w.isSuperuser uid = false) :
    has_perm w chk (pre ++ '.' :: cod) o = has_perm w chk cod o := by
  simp only [has_perm, lastSeg_append_dot]

/-- Witness for C6: `has_perm("myapp.edit")` and `has_perm("edit")` agree for
a concrete active non-superuser. -/
theorem C6_witness :
    has_perm sampleWorld userChecker
      (['m', 'y', 'a', 'p', 'p'] ++ '.' :: sampleEdit) sampleObj =
      has_perm sampleWorld userChecker sampleEdit sampleObj :=
  C6_only_trailing_segment_matters sampleWorld userChecker sampleObj
    ['m', 'y', 'a', 'p', 'p'] sampleEdit
    (fun uid h => by cases h; exact ⟨rfl, rfl⟩)

/-- C7: for a checker bound to a group and no user, `get_perms` on a
resolvable, uncached object returns a duplicate-free list holding exactly the
codenames defined for the object's type that the bound group is granted on
this object (matching content type and primary key), and for dot-free
codenames `has_perm` answers `.ok true` exactly for those codenames. -/
theorem C7_group_only (w : World) (chk : Checker) (o : Obj) (g ct : Nat)
    (pk : Str) (hu : chk.user = none) (hg : chk.group = some g)
    (hct : o.ctypeId = some ct) (hpk : o.pk = some pk)
    (hmiss : cacheLookup (ct, pk) chk.cache = none) :
    ∃ ps c', get_perms w chk o = .ok (ps, c') ∧ ps.Nodup ∧
      (∀ cod, cod ∈ ps ↔ grantedToGroup w ct pk g cod) ∧
      (∀ cod, '.' ∉ cod →
        (has_perm w chk cod o = .ok true ↔ grantedToGroup w ct pk g cod)) := by
  have hgp : get_perms w chk o =
      .ok (group_query w (some g) ct pk,
           cacheInsert (ct, pk) (group_query w (some g) ct pk) chk.cache) := by
    rw [get_perms_eq w chk o ct pk hct hpk, hmiss]
    simp [hu, hg]
  refine ⟨_, _, hgp, List.nodup_dedup _,
    fun cod => mem_group_query w g ct pk cod, ?_⟩
  intro cod hdot
  rw [← mem_group_query w g ct pk cod]
  simp [has_perm, hu, memberPerms, hgp, lastSeg_of_no_dot cod hdot, bind,
    Except.bind, pure, Except.pure]

def groupChecker : Checker := ⟨none, some 5, []⟩

/-- Witness for C7 at a concrete group-bound checker: the sample group is
granted `view` on the sample object. -/
theorem C7_witness :
    ∃ ps c', get_perms sampleWorld groupChecker sampleObj = .ok (ps, c') ∧
      ps.Nodup ∧
      (∀ cod, cod ∈ ps ↔ grantedToGroup sampleWorld 1 samplePk 5 cod) ∧
      (∀ cod, '.' ∉ cod →
        (has_perm sampleWorld groupChecker cod sampleObj = .ok true ↔
          grantedToGroup sampleWorld 1 samplePk 5 cod)) :=
  C7_group_only sampleWorld groupChecker sampleObj 5 1 samplePk rfl rfl rfl
    rfl rfl

/-- C8: a checker constructed from the anonymous marker binds no user and no
group; `get_perms` on any resolvable object returns the empty list, whatever
the grant tables hold (it still writes the empty entry to the cache). -/
theorem C8_fully_anonymous (w : World) (o : Obj) (ct : Nat) (pk : Str)
    (hct : o.ctypeId = some ct) (hpk : o.pk = some pk) :
    get_perms w (newChecker .anonymous) o =
      .ok ([], cacheInsert (ct, pk) [] []) := by
  rw [get_perms_eq w (newChecker .anonymous) o ct pk hct hpk]
  simp [newChecker, get_identity, cacheLookup, group_query_none]

/-- Witness for C8: the anonymous checker gets nothing on the sample object
even though the sample world contains user and group grants on it. -/
theorem C8_witness :
    get_perms sampleWorld (newChecker .anonymous) sampleObj =
      .ok ([], cacheInsert (1, samplePk) [] []) :=
  C8_fully_anonymous sampleWorld sampleObj 1 samplePk rfl rfl

end Guardian

namespace Guardian

/-- A one-definition, one-group-grant world used for the C9 difference pair:
type `t` defines codename `v` and group `7` is granted it on primary key
`pk`. -/
def collisionWorld (t : Nat) (pk : Str) : World :=
  { permissions := [⟨1, ['v'], t⟩]
    userPerms := []
    groupPerms := [⟨1, 7, pk, t⟩]
    userGroups := []
    isActive := fun _ => true
    isSuperuser := fun _ => false }

def collisionChecker : Checker := ⟨none, some 7, []⟩

/-- C9: two resolvable objects with different content types but the same
primary key get different cache keys from `get_local_cache_key`; moreover
there is a world and a checker in which `get_perms` returns different
permission lists for the two objects. -/
theorem C9_distinct_cache_keys (o1 o2 : Obj) (t1 t2 : Nat) (pk : Str)
    (h1 : o1.ctypeId = some t1) (hp1 : o1.pk = some pk)
    (h2 : o2.ctypeId = some t2) (hp2 : o2.pk = some pk) (hne : t1 ≠ t2) :
    get_local_cache_key o1 ≠ get_local_cache_key o2 ∧
    ∃ (w : World) (chk : Checker) (r1 r2 : List Str × Cache),
      get_perms w chk o1 = .ok r1 ∧ get_perms w chk o2 = .ok r2 ∧
      r1.1 ≠ r2.1 := by
  constructor
  · simp only [get_local_cache_key, get_for_model, obj_pk, h1, hp1, h2, hp2,
      bind, Except.bind, pure, Except.pure]
    intro h
    exact hne (by injection h with h'; exact (Prod.mk.injEq _ _ _ _ ▸ h').1)
  · have hbeq : (t1 == t2) = false := by
      simpa using hne
    refine ⟨collisionWorld t1 pk, collisionChecker,
      ([['v']], cacheInsert (t1, pk) [['v']] []),
      ([], cacheInsert (t2, pk) [] []), ?_, ?_, by simp⟩
    · rw [get_perms_eq (collisionWorld t1 pk) collisionChecker o1 t1 pk h1 hp1]
      simp [collisionChecker, collisionWorld, cacheLookup, group_query,
        List.dedup_cons_of_not_mem]
    · rw [get_perms_eq (collisionWorld t1 pk) collisionChecker o2 t2 pk h2 hp2]
      simp [collisionChecker, collisionWorld, cacheLookup, group_query, hbeq]

/-- Witness for C9 at content types 1 and 2 with the shared primary key. -/
theorem C9_witness :
    get_local_cache_key (⟨some 1, some samplePk⟩ : Obj) ≠
      get_local_cache_key (⟨some 2, some samplePk⟩ : Obj) ∧
    ∃ (w : World) (chk : Checker) (r1 r2 : List Str × Cache),
      get_perms w chk ⟨some 1, some samplePk⟩ = .ok r1 ∧
      get_perms w chk ⟨some 2, some samplePk⟩ = .ok r2 ∧
      r1.1 ≠ r2.1 :=
  C9_distinct_cache_keys ⟨some 1, some samplePk⟩ ⟨some 2, some samplePk⟩ 1 2
    samplePk rfl rfl rfl rfl (by decide)

end Guardian

namespace Guardian

/-- A world where user `1` is directly granted `edit` on the sample object
and also belongs to group `5`, which is granted the same `edit` permission on
the same object. -/
def dupWorld : World :=
  { permissions := [⟨1, sampleEdit, 1⟩]
    userPerms := [⟨1, 1, samplePk, 1⟩]
    groupPerms := [⟨1, 5, samplePk, 1⟩]
    userGroups := [(1, 5)]
    isActive := fun _ => true
    isSuperuser := fun _ => false }

/-- Counterexample to C1: the normal-user branch concatenates the group-grant
rows and the user-grant rows (`UNION ALL`, no dedup), so a codename granted
both directly and via a group appears twice in the `get_perms` result —
refuting "each codename appears at most once in the result". -/
theorem C1_counterexample :
    get_perms dupWorld userChecker sampleObj =
      .ok ([sampleEdit, sampleEdit],
           [((1, samplePk), [sampleEdit, sampleEdit])]) ∧
    ¬ ([sampleEdit, sampleEdit] : List Str).Nodup := by
  exact ⟨rfl, by decide⟩

/-- C1 as amended: for an active non-superuser bound user and a resolvable,
uncached object, the `get_perms` result contains a codename exactly when it
is granted to the user directly via `UserObjectPermission` or via
`GroupObjectPermission` to a group the user belongs to (matching content type
and object primary key) — it is the union as a set, but duplicates are *not*
removed: a codename may occur once per matching grant row. -/
theorem C1_normal_user_union (w : World) (chk : Checker) (o : Obj)
    (uid ct : Nat) (pk : Str) (hu : chk.user = some uid)
    (hact : w.isActive uid = true) (hsup : w.isSuperuser uid = false)
    (hct : o.ctypeId = some ct) (hpk : o.pk = some pk)
    (hmiss : cacheLookup (ct, pk) chk.cache = none) :
    ∃ ps c', get_perms w chk o = .ok (ps, c') ∧
      ∀ cod, cod ∈ ps ↔
        grantedDirect w ct pk uid cod ∨ grantedViaGroup w ct pk uid cod := by
  refine ⟨execute_normal_user_query w ct pk uid,
    cacheInsert (ct, pk) (execute_normal_user_query w ct pk uid) chk.cache,
    ?_, fun cod => ?_⟩
  · rw [get_perms_eq w chk o ct pk hct hpk, hmiss]
    simp [hu, hact, hsup]
  · rw [mem_execute_normal_user_query]
    exact or_comm

/-- Witness for the amended C1: user `1` in `sampleWorld` is directly granted
`edit` and, via group `5`, granted `view` on the sample object. -/
theorem C1_witness :
    ∃ ps c', get_perms sampleWorld userChecker sampleObj = .ok (ps, c') ∧
      ∀ cod, cod ∈ ps ↔
        grantedDirect sampleWorld 1 samplePk 1 cod ∨
        grantedViaGroup sampleWorld 1 samplePk 1 cod :=
  C1_normal_user_union sampleWorld userChecker sampleObj 1 1 samplePk rfl rfl
    rfl rfl rfl rfl

end Guardian
